import Mathlib

/-!
Verification of the iCode PTY relay core (`src/server/pty.ts`, the
session-multiplexing version).

The TypeScript module keeps a module-level `Map` from a working-directory
string to a `Session` object (`{ pty, cwd, buffer, alive }`), and a per-
WebSocket-connection handler with a `currentSession` reference and a list of
`disposables` (the pty `onData` / `onExit` subscriptions installed by
`attach`).  Node.js runs every callback to completion before the next one, so
each message handler, pty data callback, pty exit callback and socket close
callback is one atomic step; the only suspension point inside a handler is the
`await isDirectory(cwd)` at the top of `selectProject`, after which the rest
of `selectProject` runs synchronously.  The embedding below mirrors this: a
`World` holds the server state and the connections, and `step` executes one
callback atomically.  The directory check talks to the filesystem, so its
result is an explicit boolean on the `select` event.  Session objects are
shared mutable state; they live in a heap indexed by a spawn counter, which
also stands in for the process id reported in control messages.  The bytes a
connection writes to the pty and the resizes it forwards are recorded on the
session so that theorems can talk about them.
-/

namespace ICode

/-- Association-list operations mirroring the JavaScript `Map` (unique keys,
`get` / `set` / `delete`).  `assocSet` replaces the binding in place, and
`assocDelete` removes the binding of the key. -/
def assocGet {κ α : Type} [DecidableEq κ] : List (κ × α) → κ → Option α
  | [], _ => none
  | (k, v) :: rest, k' => if k = k' then some v else assocGet rest k'

def assocSet {κ α : Type} [DecidableEq κ] : List (κ × α) → κ → α → List (κ × α)
  | [], k, v => [(k, v)]
  | (k0, v0) :: rest, k, v =>
      if k0 = k then (k, v) :: rest else (k0, v0) :: assocSet rest k v

def assocDelete {κ α : Type} [DecidableEq κ] (m : List (κ × α)) (k : κ) :
    List (κ × α) :=
  m.filter (fun p => p.1 ≠ k)

/-- `const REPLAY_BUFFER_SIZE = 64 * 1024` — how much output is buffered for
replay on reconnect. -/
def REPLAY_BUFFER_SIZE : Nat := 64 * 1024

/-- The `onData` handler installed by `spawnSession`:
`session.buffer += data; if (session.buffer.length > REPLAY_BUFFER_SIZE * 1.5)
 session.buffer = session.buffer.slice(-REPLAY_BUFFER_SIZE)`.
`REPLAY_BUFFER_SIZE * 1.5` is the exact integer `REPLAY_BUFFER_SIZE * 3 / 2`,
and `slice(-n)` keeps the last `n` characters. -/
def publish (buffer data : List Char) : List Char :=
  let b := buffer ++ data
  if REPLAY_BUFFER_SIZE * 3 / 2 < b.length then
    b.drop (b.length - REPLAY_BUFFER_SIZE)
  else b

/-- The `interface Session` of the source: `cwd`, `buffer`, `alive` (the
`pty` handle is modelled by the heap id; `written` and `resizes` record the
observable calls made on that handle by `pty.write` / `pty.resize`). -/
structure Session where
  cwd : String
  buffer : List Char
  alive : Bool
  written : List Char
  resizes : List (Int × Int)
deriving DecidableEq, Repr

/-- The module-level server state: `sessions : Map<string, Session>` (keys map
to heap ids), the heap of session objects, and the supply of fresh ids (which
also serve as the model of `pty.pid`). -/
structure ServerState where
  sessions : List (String × Nat)
  heap : List (Nat × Session)
  nextSid : Nat
deriving DecidableEq, Repr

/-- Control messages sent as `"\x01" + JSON.stringify(msg)`. -/
inductive CtrlMsg where
  | ready : CtrlMsg
  | spawned (cwd : String) (pid : Nat) : CtrlMsg
  | attachedMsg (cwd : String) (pid : Nat) : CtrlMsg
  | exited (code : Int) (cwd : String) : CtrlMsg
  | errorMsg (message : String) : CtrlMsg
deriving DecidableEq, Repr

/-- A frame sent to a client: raw pty output, or a control frame. -/
inductive Output where
  | raw (data : List Char) : Output
  | ctrl (m : CtrlMsg) : Output
deriving DecidableEq, Repr

/-- Per-connection handler state: `ws.readyState === OPEN`, the
`currentSession` reference, the target of the live `disposables`
subscriptions, and the log of frames sent to this client. -/
structure Conn where
  wsOpen : Bool
  current : Option Nat
  subscribed : Option Nat
  sent : List Output
deriving DecidableEq, Repr

/-- `sendControl`: drops the frame unless the socket is open. -/
def sendCtrl (c : Conn) (m : CtrlMsg) : Conn :=
  if c.wsOpen then { c with sent := c.sent ++ [Output.ctrl m] } else c

/-- `ws.send(data)` guarded by `ws.readyState === ws.OPEN`. -/
def sendRaw (c : Conn) (data : List Char) : Conn :=
  if c.wsOpen then { c with sent := c.sent ++ [Output.raw data] } else c

/-- `detach()`: disposes the pty subscriptions and clears `currentSession`. -/
def detachConn (c : Conn) : Conn :=
  { c with subscribed := none, current := none }

/-- `attach(session)`: `detach()` first, then subscribe to the session's
output and exit events and set `currentSession`. -/
def attachConn (c : Conn) (sid : Nat) : Conn :=
  { detachConn c with subscribed := some sid, current := some sid }

/-- A freshly spawned session object: `{ pty: proc, cwd, buffer: "",
alive: true }`. -/
def freshSession (cwd : String) : Session :=
  { cwd := cwd, buffer := [], alive := true, written := [], resizes := [] }

/-- `spawnSession(cwd)` followed by `attach(session)` and the `spawned`
control message (the tail of `selectProject`'s spawn path).  The new session
is inserted into the registry under `cwd`; its heap id doubles as the pid. -/
def spawnAndAttach (st : ServerState) (c : Conn) (cwd : String) :
    ServerState × Conn :=
  let sid := st.nextSid
  let st' : ServerState :=
    { sessions := assocSet st.sessions cwd sid
      heap := assocSet st.heap sid (freshSession cwd)
      nextSid := sid + 1 }
  (st', sendCtrl (attachConn c sid) (CtrlMsg.spawned cwd sid))

/-- The body of `selectProject` after the directory check:
`const existing = sessions.get(cwd); if (existing && existing.alive) {
attach; replay; "attached" } else { spawnSession; attach; "spawned" }`. -/
def selectGo (st : ServerState) (c : Conn) (cwd : String) :
    ServerState × Conn :=
  match assocGet st.sessions cwd with
  | some sid =>
    match assocGet st.heap sid with
    | some sd =>
      if sd.alive then
        let c1 := attachConn c sid
        let c2 := if sd.buffer = [] then c1 else sendRaw c1 sd.buffer
        (st, sendCtrl c2 (CtrlMsg.attachedMsg cwd sid))
      else spawnAndAttach st c cwd
    | none => spawnAndAttach st c cwd
  | none => spawnAndAttach st c cwd

/-- The `"2"` message case: `detach()` then `selectProject(cwd)`, whose first
step is `if (!await isDirectory(cwd)) { "error"; return }`.  The filesystem
answer is the `isDir` argument. -/
def selectStep (st : ServerState) (c : Conn) (cwd : String) (isDir : Bool) :
    ServerState × Conn :=
  let c0 := detachConn c
  if isDir then selectGo st c0 cwd
  else (st, sendCtrl c0 (CtrlMsg.errorMsg ("Not a valid directory: " ++ cwd)))

/-- `payload.replace(/\x1b\[[IO]/g, "")`: a single left-to-right scan that
deletes every (leftmost, non-overlapping) occurrence of ESC `[` `I` and
ESC `[` `O` and copies every other character through. -/
def sanitize : List Char → List Char
  | '\x1b' :: '[' :: 'I' :: rest => sanitize rest
  | '\x1b' :: '[' :: 'O' :: rest => sanitize rest
  | c :: rest => c :: sanitize rest
  | [] => []

/-- The `"0"` message case: `if (currentSession?.alive) { const filtered =
payload.replace(...); if (filtered) currentSession.pty.write(filtered) }`.
The write is recorded on the session. -/
def inputStep (st : ServerState) (c : Conn) (payload : List Char) :
    ServerState :=
  match c.current with
  | none => st
  | some sid =>
    match assocGet st.heap sid with
    | none => st
    | some sd =>
      if sd.alive then
        let filtered := sanitize payload
        if filtered = [] then st
        else
          { st with heap :=
              assocSet st.heap sid { sd with written := sd.written ++ filtered } }
      else st

/-- The longest leading run of decimal digits, as a number; `none` when the
run is empty (JavaScript `NaN`). -/
def leadingNat (l : List Char) : Option Nat :=
  let ds := l.takeWhile Char.isDigit
  if ds = [] then none
  else some (ds.foldl (fun a c => a * 10 + (c.toNat - 48)) 0)

/-- JavaScript `parseInt(s, 10)`: skip leading whitespace, an optional sign,
then read the longest digit run, ignoring any trailing garbage; `none` stands
for `NaN`. -/
def parseIntJS (s : List Char) : Option Int :=
  let t := s.dropWhile (fun c =>
    c = ' ' ∨ c = '\t' ∨ c = '\n' ∨ c = '\r' ∨ c = '\x0b' ∨ c = '\x0c')
  match t with
  | '+' :: rest => (leadingNat rest).map Int.ofNat
  | '-' :: rest => (leadingNat rest).map (fun n => -(n : Int))
  | _ => (leadingNat t).map Int.ofNat

/-- JavaScript `payload.split(",")`. -/
def splitComma : List Char → List (List Char)
  | [] => [[]]
  | ',' :: rest => [] :: splitComma rest
  | c :: rest =>
    match splitComma rest with
    | [] => [[c]]
    | p :: ps => (c :: p) :: ps

/-- The `"1"` message case: `const parts = payload.split(","); const cols =
parseInt(parts[0], 10); const rows = parseInt(parts[1], 10);
if (currentSession?.alive && cols > 0 && rows > 0) pty.resize(cols, rows)`.
(`parts[1]` can be `undefined`, whose `parseInt` is `NaN`.)  The resize is
recorded on the session. -/
def resizeStep (st : ServerState) (c : Conn) (payload : List Char) :
    ServerState :=
  let parts := splitComma payload
  let cols := parseIntJS (parts.headD [])
  let rows := (parts.get? 1).bind (fun s => parseIntJS s)
  match c.current with
  | none => st
  | some sid =>
    match assocGet st.heap sid with
    | none => st
    | some sd =>
      if sd.alive then
        match cols, rows with
        | some co, some ro =>
          if 0 < co ∧ 0 < ro then
            { st with heap :=
                assocSet st.heap sid { sd with resizes := sd.resizes ++ [(co, ro)] } }
          else st
        | _, _ => st
      else st

/-- The per-connection `onData` subscription installed by `attach`:
forward the chunk when this connection is subscribed to the session. -/
def fanOut (sid : Nat) (data : List Char) (c : Conn) : Conn :=
  if c.subscribed = some sid then sendRaw c data else c

/-- A pty data event: the session's own `onData` handler appends to the
replay buffer (with trimming), then every subscribed connection's handler
forwards the chunk. -/
def dataStep (st : ServerState) (conns : List Conn) (sid : Nat)
    (data : List Char) : ServerState × List Conn :=
  match assocGet st.heap sid with
  | none => (st, conns)
  | some sd =>
    ({ st with heap :=
        assocSet st.heap sid { sd with buffer := publish sd.buffer data } },
     conns.map (fanOut sid data))

/-- The per-connection `onExit` subscription installed by `attach`: send the
`exited` control message and clear `currentSession`. -/
def exitNotify (sid : Nat) (code : Int) (cwd : String) (c : Conn) : Conn :=
  if c.subscribed = some sid then
    { sendCtrl c (CtrlMsg.exited code cwd) with current := none }
  else c

/-- A pty exit event: the handler installed by `spawnSession` runs first
(`session.alive = false; sessions.delete(cwd)`), then every subscribed
connection's `onExit` handler. -/
def exitStep (st : ServerState) (conns : List Conn) (sid : Nat) (code : Int) :
    ServerState × List Conn :=
  match assocGet st.heap sid with
  | none => (st, conns)
  | some sd =>
    ({ st with
        heap := assocSet st.heap sid { sd with alive := false }
        sessions := assocDelete st.sessions sd.cwd },
     conns.map (exitNotify sid code sd.cwd))

/-- The whole server: module state plus the connection handlers (indexed by
position). -/
structure World where
  server : ServerState
  conns : List Conn
deriving DecidableEq, Repr

/-- One atomic event-loop callback. -/
inductive Ev where
  | select (ci : Nat) (cwd : String) (isDir : Bool) : Ev
  | inputMsg (ci : Nat) (payload : List Char) : Ev
  | resizeMsg (ci : Nat) (payload : List Char) : Ev
  | ptyData (sid : Nat) (data : List Char) : Ev
  | ptyExit (sid : Nat) (code : Int) : Ev
  | wsClose (ci : Nat) : Ev
deriving DecidableEq, Repr

/-- Execute one callback.  `select` carries the parsed, non-empty `cwd`
(`if (cwd) { detach(); selectProject(cwd); }`) and the filesystem's answer to
`isDirectory`.  `wsClose` is `ws.on("close", () => detach())`. -/
def step (w : World) (e : Ev) : World :=
  match e with
  | Ev.select ci cwd isDir =>
    if cwd = "" then w
    else
      match w.conns.get? ci with
      | none => w
      | some c =>
        let r := selectStep w.server c cwd isDir
        { server := r.1, conns := w.conns.set ci r.2 }
  | Ev.inputMsg ci payload =>
    match w.conns.get? ci with
    | none => w
    | some c => { w with server := inputStep w.server c payload }
  | Ev.resizeMsg ci payload =>
    match w.conns.get? ci with
    | none => w
    | some c => { w with server := resizeStep w.server c payload }
  | Ev.ptyData sid data =>
    let r := dataStep w.server w.conns sid data
    { server := r.1, conns := r.2 }
  | Ev.ptyExit sid code =>
    let r := exitStep w.server w.conns sid code
    { server := r.1, conns := r.2 }
  | Ev.wsClose ci =>
    match w.conns.get? ci with
    | none => w
    | some c =>
      { w with conns := w.conns.set ci { detachConn c with wsOpen := false } }

/-- Run a sequence of callbacks. -/
def run (w : World) (es : List Ev) : World := es.foldl step w

/-- A just-accepted connection: `handleConnection` immediately sends the
`ready` control message. -/
def initConn : Conn :=
  { wsOpen := true, current := none, subscribed := none
    sent := [Output.ctrl CtrlMsg.ready] }

/-- A freshly started server with `n` just-accepted connections. -/
def initWorld (n : Nat) : World :=
  { server := { sessions := [], heap := [], nextSid := 0 }
    conns := List.replicate n initConn }

/-- The raw (non-control) bytes of a frame log, concatenated in order. -/
def rawBytes : List Output → List Char
  | [] => []
  | Output.raw d :: rest => d ++ rawBytes rest
  | Output.ctrl _ :: rest => rawBytes rest

/-- The two stripped sequences: the bracketed-paste-mode toggle escapes
ESC `[` `I` and ESC `[` `O` (the spec's name for the sequences matched by
`/\x1b\[[IO]/`). -/
def isToggle (t : List Char) : Bool :=
  t = [ '\x1b', '[', 'I' ] ∨ t = [ '\x1b', '[', 'O' ]

/-- Whether a string begins with a toggle sequence. -/
def startsToggle : List Char → Bool
  | '\x1b' :: '[' :: 'I' :: _ => true
  | '\x1b' :: '[' :: 'O' :: _ => true
  | _ => false

/-- Spec-side description of the sanitization: scanning left to right, every
character that does not begin a toggle sequence is kept verbatim and in
order, and every toggle sequence is deleted whole — nothing else is
altered. -/
inductive SanitizeSpec : List Char → List Char → Prop where
  | nil : SanitizeSpec [] []
  | keep (c : Char) (s t : List Char) (h : startsToggle (c :: s) = false) :
      SanitizeSpec s t → SanitizeSpec (c :: s) (c :: t)
  | del (tg s t : List Char) (h : isToggle tg = true) :
      SanitizeSpec s t → SanitizeSpec (tg ++ s) t


/-- The claim's reading of a resize field: a plain decimal numeral (digits
only) denoting a positive integer. -/
def isPosIntField (s : List Char) : Bool :=
  s ≠ [] ∧ s.all Char.isDigit ∧
    0 < s.foldl (fun a c => a * 10 + (c.toNat - 48)) 0

/-- A concrete session used to evaluate the theorems: freshly spawned for
`/tmp/proj-a` as heap id 0. -/
def sessA : Session := freshSession "/tmp/proj-a"

/-- A concrete server state holding only `sessA`. -/
def stA : ServerState :=
  { sessions := [("/tmp/proj-a", 0)], heap := [(0, sessA)], nextSid := 1 }

/-- A concrete open connection attached to `sessA`. -/
def connA : Conn :=
  { wsOpen := true, current := some 0, subscribed := some 0, sent := [] }


/-! ### Association-list (Map) lemmas -/

theorem assocGet_assocSet_self {κ α : Type} [DecidableEq κ]
    (m : List (κ × α)) (k : κ) (v : α) :
    assocGet (assocSet m k v) k = some v := by
  induction m with
  | nil => simp [assocGet, assocSet]
  | cons p rest ih =>
    obtain ⟨k0, v0⟩ := p
    by_cases h : k0 = k
    · simp [assocGet, assocSet, h]
    · simp [assocGet, assocSet, h, ih]

theorem assocGet_assocSet_ne {κ α : Type} [DecidableEq κ]
    (m : List (κ × α)) (k k' : κ) (v : α) (h : k ≠ k') :
    assocGet (assocSet m k v) k' = assocGet m k' := by
  induction m with
  | nil => simp [assocGet, assocSet, h]
  | cons p rest ih =>
    obtain ⟨k0, v0⟩ := p
    by_cases h0 : k0 = k
    · subst h0
      simp [assocGet, assocSet, h]
    · simp [assocGet, assocSet, h0, ih]

theorem assocSet_assocSet {κ α : Type} [DecidableEq κ]
    (m : List (κ × α)) (k : κ) (v v' : α) :
    assocSet (assocSet m k v) k v' = assocSet m k v' := by
  induction m with
  | nil => simp [assocSet]
  | cons p rest ih =>
    obtain ⟨k0, v0⟩ := p
    by_cases h0 : k0 = k
    · simp [assocSet, h0]
    · simp [assocSet, h0, ih]

theorem assocSet_get_eq {κ α : Type} [DecidableEq κ]
    (m : List (κ × α)) (k : κ) (v : α) (h : assocGet m k = some v) :
    assocSet m k v = m := by
  induction m with
  | nil => simp [assocGet] at h
  | cons p rest ih =>
    obtain ⟨k0, v0⟩ := p
    by_cases h0 : k0 = k
    · subst h0
      simp [assocGet] at h
      simp [assocSet, h]
    · simp [assocGet, h0] at h
      simp [assocSet, h0, ih h]

theorem assocGet_assocDelete_self {κ α : Type} [DecidableEq κ]
    (m : List (κ × α)) (k : κ) :
    assocGet (assocDelete m k) k = none := by
  induction m with
  | nil => simp [assocGet, assocDelete]
  | cons p rest ih =>
    obtain ⟨k0, v0⟩ := p
    by_cases h0 : k0 = k
    · simpa [assocDelete, h0] using ih
    · simpa [assocDelete, assocGet, h0] using ih

theorem assocGet_assocDelete_ne {κ α : Type} [DecidableEq κ]
    (m : List (κ × α)) (k k' : κ) (h : k' ≠ k) :
    assocGet (assocDelete m k) k' = assocGet m k' := by
  induction m with
  | nil => simp [assocGet, assocDelete]
  | cons p rest ih =>
    obtain ⟨k0, v0⟩ := p
    by_cases h0 : k0 = k
    · subst h0
      simp [assocDelete, assocGet, Ne.symm h] at ih ⊢
      simpa [assocDelete] using ih
    · by_cases h1 : k0 = k'
      · subst h1
        simp [assocDelete, assocGet, List.filter, h0]
      · simp [assocDelete, assocGet, h0, h1] at ih ⊢
        simpa [assocDelete] using ih

/-! ### Replay-buffer lemmas -/

theorem publish_length_le (buf data : List Char) :
    (publish buf data).length ≤ REPLAY_BUFFER_SIZE * 3 / 2 := by
  unfold publish
  by_cases h : REPLAY_BUFFER_SIZE * 3 / 2 < (buf ++ data).length
  · simp only [h, if_true, List.length_drop]
    unfold REPLAY_BUFFER_SIZE at h ⊢
    omega
  · simp only [h, if_false]
    omega

theorem publish_suffix (buf data : List Char) :
    publish buf data <:+ buf ++ data := by
  unfold publish
  by_cases h : REPLAY_BUFFER_SIZE * 3 / 2 < (buf ++ data).length
  · simp only [h, if_true]
    exact List.drop_suffix _ _
  · simp only [h, if_false]
    exact List.suffix_refl _

theorem publish_trim (buf data : List Char)
    (h : REPLAY_BUFFER_SIZE * 3 / 2 < (buf ++ data).length) :
    publish buf data =
      (buf ++ data).drop ((buf ++ data).length - REPLAY_BUFFER_SIZE) ∧
    (publish buf data).length = REPLAY_BUFFER_SIZE := by
  unfold publish
  simp only [h, if_true, List.length_drop, true_and]
  unfold REPLAY_BUFFER_SIZE at h ⊢
  omega

theorem foldl_publish_length_le (chunks : List (List Char)) (init : List Char)
    (h : init.length ≤ REPLAY_BUFFER_SIZE * 3 / 2) :
    (chunks.foldl publish init).length ≤ REPLAY_BUFFER_SIZE * 3 / 2 := by
  induction chunks generalizing init with
  | nil => simpa using h
  | cons p rest ih => exact ih (publish init p) (publish_length_le init p)

theorem foldl_publish_suffix (chunks : List (List Char)) (init : List Char) :
    chunks.foldl publish init <:+ init ++ chunks.flatten := by
  induction chunks generalizing init with
  | nil => simp
  | cons p rest ih =>
    have h1 : rest.foldl publish (publish init p) <:+
        publish init p ++ rest.flatten := ih (publish init p)
    have h2 : publish init p ++ rest.flatten <:+
        (init ++ p) ++ rest.flatten := by
      obtain ⟨r, hr⟩ := publish_suffix init p
      exact ⟨r, by rw [← List.append_assoc, hr]⟩
    simpa [List.append_assoc] using h1.trans h2

/-! ### Sanitization: the specification side -/


theorem sanitize_cons_of_false (c : Char) (rest : List Char)
    (h : startsToggle (c :: rest) = false) :
    sanitize (c :: rest) = c :: sanitize rest := by
  rw [sanitize.eq_def]
  split
  · rename_i heq
    rw [heq] at h
    simp [startsToggle] at h
  · rename_i heq
    rw [heq] at h
    simp [startsToggle] at h
  · rename_i heq
    injection heq with hc hr
    subst hc
    subst hr
    rfl
  · rename_i heq
    simp at heq

theorem sanitize_sanitizeSpec (s : List Char) :
    SanitizeSpec s (sanitize s) := by
  induction s using sanitize.induct with
  | case1 rest ih =>
    exact SanitizeSpec.del [ '\x1b', '[', 'I' ] rest (sanitize rest)
      (by decide) ih
  | case2 rest ih =>
    exact SanitizeSpec.del [ '\x1b', '[', 'O' ] rest (sanitize rest)
      (by decide) ih
  | case3 c rest h1 h2 ih =>
    have hko : startsToggle (c :: rest) = false := by
      rw [startsToggle.eq_def]
      split
      · rename_i heq
        injection heq with hc hr
        exact ((h1 _ hc hr).elim)
      · rename_i heq
        injection heq with hc hr
        exact ((h2 _ hc hr).elim)
      · rfl
    rw [sanitize_cons_of_false c rest hko]
    exact SanitizeSpec.keep c rest (sanitize rest) hko ih
  | case4 => exact SanitizeSpec.nil

theorem sanitize_sublist (s : List Char) : List.Sublist (sanitize s) s := by
  induction s using sanitize.induct with
  | case1 rest ih =>
    refine List.Sublist.trans ?_ (List.sublist_cons_self _ _)
    refine List.Sublist.trans ?_ (List.sublist_cons_self _ _)
    exact List.Sublist.trans ih (List.sublist_cons_self _ _)
  | case2 rest ih =>
    refine List.Sublist.trans ?_ (List.sublist_cons_self _ _)
    refine List.Sublist.trans ?_ (List.sublist_cons_self _ _)
    exact List.Sublist.trans ih (List.sublist_cons_self _ _)
  | case3 c rest h1 h2 ih =>
    have hko : startsToggle (c :: rest) = false := by
      rw [startsToggle.eq_def]
      split
      · rename_i heq
        injection heq with hc hr
        exact ((h1 _ hc hr).elim)
      · rename_i heq
        injection heq with hc hr
        exact ((h2 _ hc hr).elim)
      · rfl
    rw [sanitize_cons_of_false c rest hko]
    exact List.Sublist.cons₂ c ih
  | case4 => exact List.Sublist.refl _

/-! ### Run and step helper lemmas -/

theorem run_nil (w : World) : run w [] = w := rfl

theorem run_cons (w : World) (e : Ev) (es : List Ev) :
    run w (e :: es) = run (step w e) es := rfl

theorem run_append (w : World) (a b : List Ev) :
    run w (a ++ b) = run (run w a) b := by
  simp [run, List.foldl_append]

theorem rawBytes_append (a b : List Output) :
    rawBytes (a ++ b) = rawBytes a ++ rawBytes b := by
  induction a with
  | nil => rfl
  | cons o rest ih =>
    cases o with
    | raw d => simp [rawBytes, ih]
    | ctrl m => simp [rawBytes, ih]

theorem rawBytes_map_raw (qs : List (List Char)) :
    rawBytes (qs.map Output.raw) = qs.flatten := by
  induction qs with
  | nil => rfl
  | cons q rest ih => simp [rawBytes, ih]

theorem selectGo_attach (st : ServerState) (c : Conn) (cwd : String)
    (sid : Nat) (sd : Session)
    (h1 : assocGet st.sessions cwd = some sid)
    (h2 : assocGet st.heap sid = some sd)
    (h3 : sd.alive = true) :
    selectGo st c cwd =
      (st, sendCtrl
        (if sd.buffer = [] then attachConn c sid
         else sendRaw (attachConn c sid) sd.buffer)
        (CtrlMsg.attachedMsg cwd sid)) := by
  simp [selectGo, h1, h2, h3]

theorem selectGo_spawn (st : ServerState) (c : Conn) (cwd : String)
    (hdead : ∀ sid sd, assocGet st.sessions cwd = some sid →
      assocGet st.heap sid = some sd → sd.alive = false) :
    selectGo st c cwd = spawnAndAttach st c cwd := by
  unfold selectGo
  cases hg : assocGet st.sessions cwd with
  | none => rfl
  | some sid =>
    cases hh : assocGet st.heap sid with
    | none => simp [hh]
    | some sd => simp [hh, hdead sid sd hg hh]

theorem step_select (st : ServerState) (conns : List Conn) (ci : Nat)
    (c : Conn) (cwd : String) (isDir : Bool)
    (hg : conns.get? ci = some c) (hc : cwd ≠ "") :
    step ⟨st, conns⟩ (Ev.select ci cwd isDir) =
      ⟨(selectStep st c cwd isDir).1,
       conns.set ci (selectStep st c cwd isDir).2⟩ := by
  have hg' : conns[ci]? = some c := by
    rw [← List.get?_eq_getElem?]
    exact hg
  simp [step, hg', hc]

theorem step_wsClose (st : ServerState) (conns : List Conn) (ci : Nat)
    (c : Conn) (hg : conns.get? ci = some c) :
    step ⟨st, conns⟩ (Ev.wsClose ci) =
      ⟨st, conns.set ci { detachConn c with wsOpen := false }⟩ := by
  have hg' : conns[ci]? = some c := by
    rw [← List.get?_eq_getElem?]
    exact hg
  simp [step, hg']

theorem step_ptyData (st : ServerState) (conns : List Conn) (sid : Nat)
    (sd : Session) (data : List Char) (hh : assocGet st.heap sid = some sd) :
    step ⟨st, conns⟩ (Ev.ptyData sid data) =
      ⟨{ st with heap :=
          assocSet st.heap sid { sd with buffer := publish sd.buffer data } },
       conns.map (fanOut sid data)⟩ := by
  simp [step, dataStep, hh]

theorem step_ptyExit (st : ServerState) (conns : List Conn) (sid : Nat)
    (sd : Session) (code : Int) (hh : assocGet st.heap sid = some sd) :
    step ⟨st, conns⟩ (Ev.ptyExit sid code) =
      ⟨{ st with
          heap := assocSet st.heap sid { sd with alive := false }
          sessions := assocDelete st.sessions sd.cwd },
       conns.map (exitNotify sid code sd.cwd)⟩ := by
  simp [step, exitStep, hh]

/-- Running a block of pty data events for session `sid`: the session's
buffer folds `publish` over the chunks, every open connection subscribed to
`sid` receives the chunks as raw frames in order, and nothing else changes. -/
theorem run_ptyData (sid : Nat) (ps : List (List Char)) (st : ServerState)
    (conns : List Conn) (sd : Session)
    (hh : assocGet st.heap sid = some sd) :
    run ⟨st, conns⟩ (ps.map (Ev.ptyData sid)) =
      ⟨{ st with heap :=
          assocSet st.heap sid { sd with buffer := ps.foldl publish sd.buffer } },
       conns.map (fun c =>
         if c.subscribed = some sid ∧ c.wsOpen = true
         then { c with sent := c.sent ++ ps.map Output.raw } else c)⟩ := by
  induction ps generalizing st conns sd with
  | nil =>
    simp only [List.map_nil, run_nil, List.foldl_nil, List.append_nil]
    rw [assocSet_get_eq st.heap sid sd hh]
    have hp : ∀ c ∈ conns,
        (if c.subscribed = some sid ∧ c.wsOpen = true
         then { c with sent := c.sent } else c) = c := by
      intro c _
      split <;> rfl
    rw [List.map_congr_left hp]
    simp
  | cons p rest ih =>
    rw [List.map_cons, run_cons, step_ptyData st conns sid sd p hh,
      ih _ _ _ (assocGet_assocSet_self st.heap sid _), assocSet_assocSet,
      List.map_map]
    simp only [World.mk.injEq]
    refine ⟨by simp, ?_⟩
    refine List.map_congr_left ?_
    intro c _
    by_cases hsub : c.subscribed = some sid
    · by_cases hopen : c.wsOpen = true
      · simp [Function.comp, fanOut, sendRaw, hsub, hopen]
      · simp [Function.comp, fanOut, sendRaw, hsub, hopen]
    · simp [Function.comp, fanOut, hsub]

/-! ### Claim theorems -/

/-- C5: For every sequence of published output chunks, after each publish the
replay buffer's length never exceeds the capacity ceiling (64 KiB) times the
growth-slack factor (1.5); the buffer after a publish is always a suffix of
the old buffer followed by the new chunk (so the evicted bytes are always the
chronologically earliest); and whenever the buffer is trimmed it keeps
exactly the most recent `REPLAY_BUFFER_SIZE` bytes. -/
theorem replay_buffer_invariant (chunks : List (List Char))
    (buf data : List Char) :
    (chunks.foldl publish []).length ≤ REPLAY_BUFFER_SIZE * 3 / 2 ∧
    publish buf data <:+ buf ++ data ∧
    (REPLAY_BUFFER_SIZE * 3 / 2 < (buf ++ data).length →
      publish buf data =
        (buf ++ data).drop ((buf ++ data).length - REPLAY_BUFFER_SIZE) ∧
      (publish buf data).length = REPLAY_BUFFER_SIZE) :=
  ⟨foldl_publish_length_le chunks [] (by simp),
   publish_suffix buf data,
   fun h => publish_trim buf data h⟩

/-- C5 witness: a 98305-byte buffer is over the trim threshold and one more
publish trims it to exactly the 64 KiB ceiling. -/
theorem replay_buffer_invariant_witness :
    REPLAY_BUFFER_SIZE * 3 / 2 <
      (List.replicate 98305 'a' ++ ([] : List Char)).length ∧
    (publish (List.replicate 98305 'a') []).length = REPLAY_BUFFER_SIZE := by
  have h : REPLAY_BUFFER_SIZE * 3 / 2 <
      (List.replicate 98305 'a' ++ ([] : List Char)).length := by
    rw [List.length_append, List.length_replicate, List.length_nil]
    decide
  exact ⟨h,
    ((replay_buffer_invariant [] (List.replicate 98305 'a') []).2.2 h).2⟩

/-- C7 counterexample: the claim says a resize frame whose cols field is
non-numeric (such as `"1abc,24"`) is ignored with no resize applied.  With a
connection attached to a live session, the code in fact forwards a resize of
(1, 24), because JavaScript `parseInt("1abc", 10)` is `1`. -/
theorem resize_claim_counterexample :
    isPosIntField ("1abc".data) = false ∧
    step ⟨stA, [connA]⟩ (Ev.resizeMsg 0 ("1abc,24".data)) =
      ⟨{ stA with heap := [(0, { sessA with resizes := [(1, 24)] })] },
       [connA]⟩ := by
  constructor
  · decide
  · decide

/-- C7 (amended): for a connection attached to a live session, the resize is
forwarded if and only if JavaScript `parseInt(·, 10)` applied to each
comma-separated field yields a positive value; `parseInt` accepts a leading
integer prefix and ignores trailing garbage, so a field like `"1abc"` counts
as 1 and is forwarded, while missing, zero, negative or digit-free fields
make the frame silently ignored with no state change. -/
theorem resize_forward_iff (st : ServerState) (c : Conn) (sid : Nat)
    (sd : Session) (payload : List Char)
    (hc : c.current = some sid) (hh : assocGet st.heap sid = some sd)
    (ha : sd.alive = true) :
    (∀ co ro, parseIntJS ((splitComma payload).headD []) = some co →
      ((splitComma payload).get? 1).bind (fun s => parseIntJS s) = some ro →
      0 < co → 0 < ro →
      resizeStep st c payload =
        { st with heap := (assocSet st.heap sid
            { sd with resizes := sd.resizes ++ [(co, ro)] }) }) ∧
    ((¬ ∃ co ro, parseIntJS ((splitComma payload).headD []) = some co ∧
        ((splitComma payload).get? 1).bind (fun s => parseIntJS s) = some ro ∧
        0 < co ∧ 0 < ro) →
      resizeStep st c payload = st) := by
  constructor
  · intro co ro hco hro hpco hpro
    unfold resizeStep
    simp only [hc, hh, ha, if_true]
    simp only [hco, hro, hpco, hpro, and_self, if_true]
  · intro hn
    unfold resizeStep
    simp only [hc, hh, ha, if_true]
    cases hco : parseIntJS ((splitComma payload).headD []) with
    | none => simp [hco]
    | some co =>
      cases hro : ((splitComma payload).get? 1).bind (fun s => parseIntJS s) with
      | none => simp [hco, hro]
      | some ro =>
        have hnp : ¬ (0 < co ∧ 0 < ro) := by
          intro hcontra
          exact hn ⟨co, ro, hco, hro, hcontra.1, hcontra.2⟩
        simp [hco, hro, hnp]

/-- C7 witness: a well-formed resize frame `"80,24"` on a live attached
session is forwarded as (80, 24). -/
theorem resize_forward_iff_witness :
    resizeStep stA connA ("80,24".data) =
      { stA with heap := (assocSet stA.heap 0
          { sessA with resizes := sessA.resizes ++ [(80, 24)] }) } :=
  (resize_forward_iff stA connA 0 sessA ("80,24".data) rfl rfl rfl).1
    80 24 (by decide) (by decide) (by decide) (by decide)

/-- C8: for an input frame handled while attached to a live session, the
bytes written to the process are exactly the frame's payload with the
bracketed-paste toggle sequences removed by the single-pass scan; that scan
satisfies the spec-side description (every non-toggle character kept verbatim
and in order, every toggle sequence deleted whole), and the written bytes are
a sublist of the payload (nothing else is altered or added). -/
theorem input_sanitization (st : ServerState) (c : Conn) (sid : Nat)
    (sd : Session) (payload : List Char)
    (hc : c.current = some sid) (hh : assocGet st.heap sid = some sd)
    (ha : sd.alive = true) :
    inputStep st c payload =
      { st with heap := (assocSet st.heap sid
          { sd with written := sd.written ++ sanitize payload }) } ∧
    SanitizeSpec payload (sanitize payload) ∧
    List.Sublist (sanitize payload) payload := by
  refine ⟨?_, sanitize_sanitizeSpec payload, sanitize_sublist payload⟩
  unfold inputStep
  simp only [hc, hh, ha, if_true]
  by_cases hf : sanitize payload = []
  · simp only [hf, if_true, List.append_nil]
    have h2 : ({ cwd := sd.cwd, buffer := sd.buffer, alive := true,
                 written := sd.written, resizes := sd.resizes } : Session) = sd := by
      rw [← ha]
    rw [h2, assocSet_get_eq st.heap sid sd hh]
  · simp [hf]

/-- C8 witness: the payload `"hi" ESC [ I "X"` is written as `"hiX"`. -/
theorem input_sanitization_witness :
    inputStep stA connA ("hi\x1b[IX".data) =
      { stA with heap := (assocSet stA.heap 0
          { sessA with written := sessA.written ++ sanitize ("hi\x1b[IX".data) }) } ∧
    SanitizeSpec ("hi\x1b[IX".data) (sanitize ("hi\x1b[IX".data)) ∧
    List.Sublist (sanitize ("hi\x1b[IX".data)) ("hi\x1b[IX".data) :=
  input_sanitization stA connA 0 sessA ("hi\x1b[IX".data) rfl rfl rfl

/-- C1: a select frame whose cwd is an existing directory either reattaches
or spawns.  If the registry holds a live session for that cwd, the server
state is untouched, the connection is attached to that session, the current
replay buffer is sent (when non-empty), and an `attached` control message
with the cwd and pid follows.  If no live session exists for the cwd, a new
session is spawned with a fresh id, inserted into the registry under that
key, the connection is attached to it, and a `spawned` control message with
the cwd and pid is emitted. -/
theorem select_valid_directory (st : ServerState) (c : Conn) (cwd : String)
    (hcwd : cwd ≠ "") (hopen : c.wsOpen = true) :
    (∀ sid sd, assocGet st.sessions cwd = some sid →
      assocGet st.heap sid = some sd → sd.alive = true →
      step ⟨st, [c]⟩ (Ev.select 0 cwd true) =
        ⟨st,
         [{ c with
            current := some sid
            subscribed := some sid
            sent := c.sent ++
              (if sd.buffer = [] then [] else [Output.raw sd.buffer]) ++
              [Output.ctrl (CtrlMsg.attachedMsg cwd sid)] }]⟩) ∧
    ((∀ sid sd, assocGet st.sessions cwd = some sid →
      assocGet st.heap sid = some sd → sd.alive = false) →
      step ⟨st, [c]⟩ (Ev.select 0 cwd true) =
        ⟨{ sessions := assocSet st.sessions cwd st.nextSid
           heap := assocSet st.heap st.nextSid (freshSession cwd)
           nextSid := st.nextSid + 1 },
         [{ c with
            current := some st.nextSid
            subscribed := some st.nextSid
            sent := c.sent ++
              [Output.ctrl (CtrlMsg.spawned cwd st.nextSid)] }]⟩) := by
  constructor
  · intro sid sd h1 h2 h3
    rw [step_select st [c] 0 c cwd true rfl hcwd]
    rw [show selectStep st c cwd true = selectGo st (detachConn c) cwd from rfl]
    rw [selectGo_attach st (detachConn c) cwd sid sd h1 h2 h3]
    by_cases hb : sd.buffer = []
    · simp [hb, attachConn, detachConn, sendRaw, sendCtrl, hopen]
    · simp [hb, attachConn, detachConn, sendRaw, sendCtrl, hopen]
  · intro hdead
    rw [step_select st [c] 0 c cwd true rfl hcwd]
    rw [show selectStep st c cwd true = selectGo st (detachConn c) cwd from rfl]
    rw [selectGo_spawn st (detachConn c) cwd hdead]
    simp [spawnAndAttach, attachConn, detachConn, sendCtrl, hopen]

/-- C1 witness: from a state whose registry holds the live session `sessA`
under `/tmp/proj-a`, a select of that cwd reattaches and emits `attached`;
from the empty initial state, a select of `/tmp/proj-a` spawns session 0 and
emits `spawned`. -/
theorem select_valid_directory_witness :
    step ⟨stA, [initConn]⟩ (Ev.select 0 "/tmp/proj-a" true) =
      ⟨stA,
       [{ initConn with
          current := some 0
          subscribed := some 0
          sent := initConn.sent ++
            (if sessA.buffer = [] then [] else [Output.raw sessA.buffer]) ++
            [Output.ctrl (CtrlMsg.attachedMsg "/tmp/proj-a" 0)] }]⟩ ∧
    step ⟨(initWorld 1).server, [initConn]⟩ (Ev.select 0 "/tmp/proj-a" true) =
      ⟨{ sessions := assocSet (initWorld 1).server.sessions "/tmp/proj-a"
            (initWorld 1).server.nextSid
         heap := assocSet (initWorld 1).server.heap (initWorld 1).server.nextSid
            (freshSession "/tmp/proj-a")
         nextSid := (initWorld 1).server.nextSid + 1 },
       [{ initConn with
          current := some (initWorld 1).server.nextSid
          subscribed := some (initWorld 1).server.nextSid
          sent := initConn.sent ++ [Output.ctrl
            (CtrlMsg.spawned "/tmp/proj-a" (initWorld 1).server.nextSid)] }]⟩ :=
  ⟨(select_valid_directory stA initConn "/tmp/proj-a" (by decide) rfl).1
      0 sessA rfl rfl rfl,
   (select_valid_directory (initWorld 1).server initConn "/tmp/proj-a"
      (by decide) rfl).2 (by intro sid sd h1 _h2; simp [initWorld, assocGet] at h1)⟩

/-- C10: a select frame for the cwd of the session the connection is already
attached to is not a no-op: the connection ends re-attached to the very same
session and the whole current replay buffer is sent to the client a second
time, followed by an `attached` control message. -/
theorem reselect_same_cwd (st : ServerState) (c : Conn) (cwd : String)
    (sid : Nat) (sd : Session)
    (hcwd : cwd ≠ "") (hopen : c.wsOpen = true)
    (_hcur : c.current = some sid) (_hsub : c.subscribed = some sid)
    (hreg : assocGet st.sessions cwd = some sid)
    (hh : assocGet st.heap sid = some sd) (ha : sd.alive = true)
    (hbuf : sd.buffer ≠ []) :
    step ⟨st, [c]⟩ (Ev.select 0 cwd true) =
      ⟨st,
       [{ c with
          current := some sid
          subscribed := some sid
          sent := c.sent ++ [Output.raw sd.buffer,
            Output.ctrl (CtrlMsg.attachedMsg cwd sid)] }]⟩ := by
  rw [step_select st [c] 0 c cwd true rfl hcwd]
  rw [show selectStep st c cwd true = selectGo st (detachConn c) cwd from rfl]
  rw [selectGo_attach st (detachConn c) cwd sid sd hreg hh ha]
  simp [hbuf, attachConn, detachConn, sendRaw, sendCtrl, hopen]

/-- C10 witness: a connection attached to session 0 with buffer `"hi"`
reselecting `/tmp/proj-a` gets the buffer again and a fresh `attached`. -/
theorem reselect_same_cwd_witness :
    step ⟨{ stA with heap := [(0, { sessA with buffer := [ 'h', 'i' ] })] },
          [connA]⟩ (Ev.select 0 "/tmp/proj-a" true) =
      ⟨{ stA with heap := [(0, { sessA with buffer := [ 'h', 'i' ] })] },
       [{ connA with
          current := some 0
          subscribed := some 0
          sent := connA.sent ++ [Output.raw [ 'h', 'i' ],
            Output.ctrl (CtrlMsg.attachedMsg "/tmp/proj-a" 0)] }]⟩ :=
  reselect_same_cwd
    { stA with heap := [(0, { sessA with buffer := [ 'h', 'i' ] })] }
    connA "/tmp/proj-a" 0 { sessA with buffer := [ 'h', 'i' ] }
    (by decide) rfl rfl rfl rfl rfl rfl (by decide)

/-- The server state after a select either is untouched (invalid directory,
or reattachment to a live session) or has exactly the freshly spawned
session added. -/
theorem selectStep_server_cases (st : ServerState) (c : Conn) (cwd : String)
    (isDir : Bool) :
    (selectStep st c cwd isDir).1 = st ∨
    (selectStep st c cwd isDir).1 =
      { sessions := assocSet st.sessions cwd st.nextSid
        heap := assocSet st.heap st.nextSid (freshSession cwd)
        nextSid := st.nextSid + 1 } := by
  cases isDir with
  | false => exact Or.inl rfl
  | true =>
    rw [show selectStep st c cwd true = selectGo st (detachConn c) cwd from rfl]
    unfold selectGo
    cases hg : assocGet st.sessions cwd with
    | none => exact Or.inr rfl
    | some sid =>
      cases hh : assocGet st.heap sid with
      | none => simp [hh, spawnAndAttach]
      | some sd =>
        cases ha : sd.alive with
        | false => simp [hh, ha, spawnAndAttach]
        | true => simp [hh, ha]

/-- The same case analysis at the `step` level, for a connection that
exists. -/
theorem step_select_server_cases (w : World) (ci : Nat) (cwd : String)
    (isDir : Bool) :
    (step w (Ev.select ci cwd isDir)).server = w.server ∨
    (step w (Ev.select ci cwd isDir)).server =
      { sessions := assocSet w.server.sessions cwd w.server.nextSid
        heap := assocSet w.server.heap w.server.nextSid (freshSession cwd)
        nextSid := w.server.nextSid + 1 } := by
  unfold step
  by_cases hcwd : cwd = ""
  · simp [hcwd]
  · simp only [hcwd, if_false]
    cases hg : w.conns.get? ci with
    | none => exact Or.inl rfl
    | some c => exact selectStep_server_cases w.server c cwd isDir

/-- C2: closing the transport only removes that connection's subscription:
the whole server state (registry, every session's buffer and liveness flag)
is unchanged, the other connections are untouched, and the closing
connection merely loses its subscription and session reference.  Likewise
the implicit detach inside a select never kills or evicts an existing
session: every session other than a freshly spawned one keeps its exact
state, registry keys other than the selected cwd are untouched, and no
registry key is ever removed by a select. -/
theorem close_detaches_only (w : World) (ci : Nat) (c : Conn)
    (hg : w.conns.get? ci = some c) :
    (step w (Ev.wsClose ci)).server = w.server ∧
    (step w (Ev.wsClose ci)).conns =
      w.conns.set ci
        { c with subscribed := none, current := none, wsOpen := false } ∧
    (∀ cwd' isDir sid sd, assocGet w.server.heap sid = some sd →
      sid ≠ w.server.nextSid →
      assocGet (step w (Ev.select ci cwd' isDir)).server.heap sid = some sd) ∧
    (∀ cwd' isDir k, k ≠ cwd' →
      assocGet (step w (Ev.select ci cwd' isDir)).server.sessions k =
        assocGet w.server.sessions k) ∧
    (∀ cwd' isDir k, assocGet w.server.sessions k ≠ none →
      assocGet (step w (Ev.select ci cwd' isDir)).server.sessions k ≠ none) := by
  refine ⟨?_, ?_, ?_, ?_, ?_⟩
  · rw [step_wsClose w.server w.conns ci c hg]
  · rw [step_wsClose w.server w.conns ci c hg]
    simp [detachConn]
  · intro cwd' isDir sid sd hsd hne
    cases step_select_server_cases w ci cwd' isDir with
    | inl h => rw [h]; exact hsd
    | inr h => rw [h]; rw [assocGet_assocSet_ne _ _ _ _ (Ne.symm hne)]; exact hsd
  · intro cwd' isDir k hk
    cases step_select_server_cases w ci cwd' isDir with
    | inl h => rw [h]
    | inr h => rw [h]; exact assocGet_assocSet_ne _ _ _ _ (Ne.symm hk)
  · intro cwd' isDir k hk
    cases step_select_server_cases w ci cwd' isDir with
    | inl h => rw [h]; exact hk
    | inr h =>
      rw [h]
      by_cases hkc : k = cwd'
      · subst hkc
        rw [assocGet_assocSet_self]
        simp
      · rw [assocGet_assocSet_ne _ _ _ _ (Ne.symm hkc)]
        exact hk

/-- C2 witness: closing a connection attached to the live session `sessA`
leaves the server state untouched and only clears that connection. -/
theorem close_detaches_only_witness :
    (step ⟨stA, [connA]⟩ (Ev.wsClose 0)).server = stA ∧
    (step ⟨stA, [connA]⟩ (Ev.wsClose 0)).conns =
      [connA].set 0
        { connA with subscribed := none, current := none, wsOpen := false } :=
  ⟨(close_detaches_only ⟨stA, [connA]⟩ 0 connA rfl).1,
   (close_detaches_only ⟨stA, [connA]⟩ 0 connA rfl).2.1⟩

/-- C6: a select frame whose cwd is not an existing directory produces an
`error` control message carrying the cwd, leaves the entire server state
(registry and sessions) unchanged, and the connection remains usable: a
subsequent select of a valid directory on the same connection succeeds
normally (here: the spawn case, ending attached with a `spawned`
message). -/
theorem invalid_select_error (st : ServerState) (c : Conn) (cwd cwd2 : String)
    (hcwd : cwd ≠ "") (hopen : c.wsOpen = true) (hcwd2 : cwd2 ≠ "")
    (hdead2 : ∀ sid sd, assocGet st.sessions cwd2 = some sid →
      assocGet st.heap sid = some sd → sd.alive = false) :
    step ⟨st, [c]⟩ (Ev.select 0 cwd false) =
      ⟨st,
       [{ c with
          current := none
          subscribed := none
          sent := c.sent ++ [Output.ctrl (CtrlMsg.errorMsg
            ("Not a valid directory: " ++ cwd))] }]⟩ ∧
    run ⟨st, [c]⟩ [Ev.select 0 cwd false, Ev.select 0 cwd2 true] =
      ⟨{ sessions := assocSet st.sessions cwd2 st.nextSid
         heap := assocSet st.heap st.nextSid (freshSession cwd2)
         nextSid := st.nextSid + 1 },
       [{ c with
          current := some st.nextSid
          subscribed := some st.nextSid
          sent := c.sent ++
            [Output.ctrl (CtrlMsg.errorMsg ("Not a valid directory: " ++ cwd)),
             Output.ctrl (CtrlMsg.spawned cwd2 st.nextSid)] }]⟩ := by
  have h1 : step ⟨st, [c]⟩ (Ev.select 0 cwd false) =
      ⟨st,
       [{ c with
          current := none
          subscribed := none
          sent := c.sent ++ [Output.ctrl (CtrlMsg.errorMsg
            ("Not a valid directory: " ++ cwd))] }]⟩ := by
    rw [step_select st [c] 0 c cwd false rfl hcwd]
    simp [selectStep, detachConn, sendCtrl, hopen]
  refine ⟨h1, ?_⟩
  rw [run_cons, h1, run_cons, run_nil]
  rw [step_select st
    [{ c with
       current := none
       subscribed := none
       sent := c.sent ++ [Output.ctrl (CtrlMsg.errorMsg
         ("Not a valid directory: " ++ cwd))] }]
    0 _ cwd2 true rfl hcwd2]
  rw [show ∀ c0 : Conn, selectStep st c0 cwd2 true =
      selectGo st (detachConn c0) cwd2 from fun c0 => rfl]
  rw [selectGo_spawn st _ cwd2 hdead2]
  simp [spawnAndAttach, attachConn, detachConn, sendCtrl, hopen,
    List.append_assoc]

/-- C6 witness: selecting a bad path from the initial one-connection world
yields the error message and no state change; selecting `/tmp/proj-a`
afterwards spawns as usual. -/
theorem invalid_select_error_witness :
    step ⟨(initWorld 1).server, [initConn]⟩ (Ev.select 0 "/nope" false) =
      ⟨(initWorld 1).server,
       [{ initConn with
          current := none
          subscribed := none
          sent := initConn.sent ++ [Output.ctrl (CtrlMsg.errorMsg
            ("Not a valid directory: " ++ "/nope"))] }]⟩ :=
  (invalid_select_error (initWorld 1).server initConn "/nope" "/tmp/proj-a"
    (by decide) rfl (by decide)
    (by intro sid sd h1 _h2; simp [initWorld, assocGet] at h1)).1

/-- C4: when a session's process exits, the session object is marked dead,
its registry entry (and only its entry) is removed, every subscribed
connection with an open socket receives an `exited` control message carrying
the exit code and the session's cwd and has its session reference cleared,
other connections are untouched, and a subsequent select of the same cwd
spawns a new session. -/
theorem process_exit_cleanup (st : ServerState) (conns : List Conn)
    (sid : Nat) (sd : Session) (code : Int)
    (hh : assocGet st.heap sid = some sd) (_ha : sd.alive = true)
    (hcwd : sd.cwd ≠ "") :
    (step ⟨st, conns⟩ (Ev.ptyExit sid code)).server.heap =
      assocSet st.heap sid { sd with alive := false } ∧
    assocGet (step ⟨st, conns⟩ (Ev.ptyExit sid code)).server.sessions
      sd.cwd = none ∧
    (∀ k, k ≠ sd.cwd →
      assocGet (step ⟨st, conns⟩ (Ev.ptyExit sid code)).server.sessions k =
        assocGet st.sessions k) ∧
    (step ⟨st, conns⟩ (Ev.ptyExit sid code)).conns = conns.map (fun c =>
      if c.subscribed = some sid then
        { c with
          current := none
          sent := if c.wsOpen then
              c.sent ++ [Output.ctrl (CtrlMsg.exited code sd.cwd)]
            else c.sent }
      else c) ∧
    (step ⟨(step ⟨st, conns⟩ (Ev.ptyExit sid code)).server, [initConn]⟩
        (Ev.select 0 sd.cwd true)).conns =
      [{ initConn with
         current := some st.nextSid
         subscribed := some st.nextSid
         sent := initConn.sent ++
           [Output.ctrl (CtrlMsg.spawned sd.cwd st.nextSid)] }] := by
  rw [step_ptyExit st conns sid sd code hh]
  refine ⟨rfl, ?_, ?_, ?_, ?_⟩
  · exact assocGet_assocDelete_self st.sessions sd.cwd
  · intro k hk
    exact assocGet_assocDelete_ne st.sessions sd.cwd k hk
  · refine List.map_congr_left ?_
    intro c _
    by_cases hsub : c.subscribed = some sid
    · by_cases hopen : c.wsOpen = true
      · simp [exitNotify, sendCtrl, hsub, hopen]
      · simp [exitNotify, sendCtrl, hsub, hopen]
    · simp [exitNotify, hsub]
  · rw [step_select _ [initConn] 0 initConn sd.cwd true rfl hcwd]
    rw [show selectStep _ initConn sd.cwd true =
      selectGo _ (detachConn initConn) sd.cwd from rfl]
    rw [selectGo_spawn _ _ sd.cwd (by
      intro sid' sd' h1 _h2
      rw [assocGet_assocDelete_self] at h1
      cases h1)]
    simp [spawnAndAttach, attachConn, detachConn, sendCtrl, initConn]

/-- C4 witness: session 0 (`sessA`) exits with code 0 while `connA` is
attached: the heap marks it dead, the registry entry is gone, and `connA`
received `exited` with the cwd. -/
theorem process_exit_cleanup_witness :
    (step ⟨stA, [connA]⟩ (Ev.ptyExit 0 0)).server.heap =
      assocSet stA.heap 0 { sessA with alive := false } ∧
    assocGet (step ⟨stA, [connA]⟩ (Ev.ptyExit 0 0)).server.sessions
      "/tmp/proj-a" = none :=
  ⟨(process_exit_cleanup stA [connA] 0 sessA 0 rfl rfl (by decide)).1,
   (process_exit_cleanup stA [connA] 0 sessA 0 rfl rfl (by decide)).2.1⟩

theorem sendCtrl_current (c : Conn) (m : CtrlMsg) :
    (sendCtrl c m).current = c.current := by
  unfold sendCtrl
  split <;> rfl

theorem sendCtrl_subscribed (c : Conn) (m : CtrlMsg) :
    (sendCtrl c m).subscribed = c.subscribed := by
  unfold sendCtrl
  split <;> rfl

/-- A select that spawns, at the `step` level. -/
theorem step_select_spawn (st : ServerState) (conns : List Conn) (ci : Nat)
    (c : Conn) (cwd : String) (hg : conns.get? ci = some c) (hcwd : cwd ≠ "")
    (hdead : ∀ sid sd, assocGet st.sessions cwd = some sid →
      assocGet st.heap sid = some sd → sd.alive = false) :
    step ⟨st, conns⟩ (Ev.select ci cwd true) =
      ⟨{ sessions := assocSet st.sessions cwd st.nextSid
         heap := assocSet st.heap st.nextSid (freshSession cwd)
         nextSid := st.nextSid + 1 },
       conns.set ci (sendCtrl (attachConn (detachConn c) st.nextSid)
         (CtrlMsg.spawned cwd st.nextSid))⟩ := by
  rw [step_select st conns ci c cwd true hg hcwd]
  rw [show selectStep st c cwd true = selectGo st (detachConn c) cwd from rfl]
  rw [selectGo_spawn st _ cwd hdead]
  rfl

/-- A select that reattaches, at the `step` level. -/
theorem step_select_attach (st : ServerState) (conns : List Conn) (ci : Nat)
    (c : Conn) (cwd : String) (sid : Nat) (sd : Session)
    (hg : conns.get? ci = some c) (hcwd : cwd ≠ "")
    (h1 : assocGet st.sessions cwd = some sid)
    (h2 : assocGet st.heap sid = some sd) (h3 : sd.alive = true) :
    step ⟨st, conns⟩ (Ev.select ci cwd true) =
      ⟨st, conns.set ci (sendCtrl
        (if sd.buffer = [] then attachConn (detachConn c) sid
         else sendRaw (attachConn (detachConn c) sid) sd.buffer)
        (CtrlMsg.attachedMsg cwd sid))⟩ := by
  rw [step_select st conns ci c cwd true hg hcwd]
  rw [show selectStep st c cwd true = selectGo st (detachConn c) cwd from rfl]
  rw [selectGo_attach st (detachConn c) cwd sid sd h1 h2 h3]

/-- C9: two connections select the same cwd that has no live session, their
handlers interleaving at the `isDirectory` suspension point (so the two
post-await critical sections run atomically in either order).  In both
orders exactly one session is spawned — the spawn counter advances by one,
the registry maps the cwd to that single fresh id — and both connections end
attached to that same session. -/
theorem concurrent_select_one_spawn (st : ServerState) (c0 c1 : Conn)
    (cwd : String) (hcwd : cwd ≠ "")
    (hdead : ∀ sid sd, assocGet st.sessions cwd = some sid →
      assocGet st.heap sid = some sd → sd.alive = false) :
    ((run ⟨st, [c0, c1]⟩
        [Ev.select 0 cwd true, Ev.select 1 cwd true]).server.nextSid =
      st.nextSid + 1 ∧
     assocGet (run ⟨st, [c0, c1]⟩
        [Ev.select 0 cwd true, Ev.select 1 cwd true]).server.sessions cwd =
      some st.nextSid ∧
     assocGet (run ⟨st, [c0, c1]⟩
        [Ev.select 0 cwd true, Ev.select 1 cwd true]).server.heap st.nextSid =
      some (freshSession cwd) ∧
     (∃ d0 d1, (run ⟨st, [c0, c1]⟩
        [Ev.select 0 cwd true, Ev.select 1 cwd true]).conns = [d0, d1] ∧
        d0.current = some st.nextSid ∧ d1.current = some st.nextSid)) ∧
    ((run ⟨st, [c0, c1]⟩
        [Ev.select 1 cwd true, Ev.select 0 cwd true]).server.nextSid =
      st.nextSid + 1 ∧
     assocGet (run ⟨st, [c0, c1]⟩
        [Ev.select 1 cwd true, Ev.select 0 cwd true]).server.sessions cwd =
      some st.nextSid ∧
     assocGet (run ⟨st, [c0, c1]⟩
        [Ev.select 1 cwd true, Ev.select 0 cwd true]).server.heap st.nextSid =
      some (freshSession cwd) ∧
     (∃ d0 d1, (run ⟨st, [c0, c1]⟩
        [Ev.select 1 cwd true, Ev.select 0 cwd true]).conns = [d0, d1] ∧
        d0.current = some st.nextSid ∧ d1.current = some st.nextSid)) := by
  constructor
  · have s1 : step ⟨st, [c0, c1]⟩ (Ev.select 0 cwd true) =
        ⟨{ sessions := assocSet st.sessions cwd st.nextSid
           heap := assocSet st.heap st.nextSid (freshSession cwd)
           nextSid := st.nextSid + 1 },
         [sendCtrl (attachConn (detachConn c0) st.nextSid)
            (CtrlMsg.spawned cwd st.nextSid), c1]⟩ :=
      step_select_spawn st [c0, c1] 0 c0 cwd rfl hcwd hdead
    have s2 : step
        ⟨{ sessions := assocSet st.sessions cwd st.nextSid
           heap := assocSet st.heap st.nextSid (freshSession cwd)
           nextSid := st.nextSid + 1 },
         [sendCtrl (attachConn (detachConn c0) st.nextSid)
            (CtrlMsg.spawned cwd st.nextSid), c1]⟩ (Ev.select 1 cwd true) =
        ⟨{ sessions := assocSet st.sessions cwd st.nextSid
           heap := assocSet st.heap st.nextSid (freshSession cwd)
           nextSid := st.nextSid + 1 },
         [sendCtrl (attachConn (detachConn c0) st.nextSid)
            (CtrlMsg.spawned cwd st.nextSid),
          sendCtrl (attachConn (detachConn c1) st.nextSid)
            (CtrlMsg.attachedMsg cwd st.nextSid)]⟩ :=
      step_select_attach _
        [sendCtrl (attachConn (detachConn c0) st.nextSid)
          (CtrlMsg.spawned cwd st.nextSid), c1] 1 c1 cwd st.nextSid
        (freshSession cwd) rfl hcwd
        (assocGet_assocSet_self st.sessions cwd st.nextSid)
        (assocGet_assocSet_self st.heap st.nextSid (freshSession cwd)) rfl
    rw [run_cons, s1, run_cons, run_nil, s2]
    exact ⟨rfl, assocGet_assocSet_self st.sessions cwd st.nextSid,
      assocGet_assocSet_self st.heap st.nextSid (freshSession cwd),
      _, _, rfl, by rw [sendCtrl_current]; rfl, by rw [sendCtrl_current]; rfl⟩
  · have s1 : step ⟨st, [c0, c1]⟩ (Ev.select 1 cwd true) =
        ⟨{ sessions := assocSet st.sessions cwd st.nextSid
           heap := assocSet st.heap st.nextSid (freshSession cwd)
           nextSid := st.nextSid + 1 },
         [c0, sendCtrl (attachConn (detachConn c1) st.nextSid)
            (CtrlMsg.spawned cwd st.nextSid)]⟩ :=
      step_select_spawn st [c0, c1] 1 c1 cwd rfl hcwd hdead
    have s2 : step
        ⟨{ sessions := assocSet st.sessions cwd st.nextSid
           heap := assocSet st.heap st.nextSid (freshSession cwd)
           nextSid := st.nextSid + 1 },
         [c0, sendCtrl (attachConn (detachConn c1) st.nextSid)
            (CtrlMsg.spawned cwd st.nextSid)]⟩ (Ev.select 0 cwd true) =
        ⟨{ sessions := assocSet st.sessions cwd st.nextSid
           heap := assocSet st.heap st.nextSid (freshSession cwd)
           nextSid := st.nextSid + 1 },
         [sendCtrl (attachConn (detachConn c0) st.nextSid)
            (CtrlMsg.attachedMsg cwd st.nextSid),
          sendCtrl (attachConn (detachConn c1) st.nextSid)
            (CtrlMsg.spawned cwd st.nextSid)]⟩ :=
      step_select_attach _
        [c0, sendCtrl (attachConn (detachConn c1) st.nextSid)
          (CtrlMsg.spawned cwd st.nextSid)] 0 c0 cwd st.nextSid
        (freshSession cwd) rfl hcwd
        (assocGet_assocSet_self st.sessions cwd st.nextSid)
        (assocGet_assocSet_self st.heap st.nextSid (freshSession cwd)) rfl
    rw [run_cons, s1, run_cons, run_nil, s2]
    exact ⟨rfl, assocGet_assocSet_self st.sessions cwd st.nextSid,
      assocGet_assocSet_self st.heap st.nextSid (freshSession cwd),
      _, _, rfl, by rw [sendCtrl_current]; rfl, by rw [sendCtrl_current]; rfl⟩

/-- C9 witness: from the empty two-connection world, either interleaving of
two selects of `/tmp/proj-a` spawns exactly session 0 and attaches both. -/
theorem concurrent_select_one_spawn_witness :
    (run (initWorld 2)
        [Ev.select 0 "/tmp/proj-a" true, Ev.select 1 "/tmp/proj-a" true]
      ).server.nextSid = (initWorld 2).server.nextSid + 1 ∧
    (run (initWorld 2)
        [Ev.select 1 "/tmp/proj-a" true, Ev.select 0 "/tmp/proj-a" true]
      ).server.nextSid = (initWorld 2).server.nextSid + 1 :=
  ⟨(concurrent_select_one_spawn (initWorld 2).server initConn initConn
      "/tmp/proj-a" (by decide)
      (by intro sid sd h1 _h2; simp [initWorld, assocGet] at h1)).1.1,
   (concurrent_select_one_spawn (initWorld 2).server initConn initConn
      "/tmp/proj-a" (by decide)
      (by intro sid sd h1 _h2; simp [initWorld, assocGet] at h1)).2.1⟩

/-- C3: spawn a session by selecting `cwd` from connection 0, publish the
chunks `ps`, close connection 0 (detach), reselect `cwd` from connection 1
(attach), then publish the chunks `qs`.  The raw bytes connection 1 receives
are exactly the replay buffer at attach time followed by the post-attach
chunks — a suffix of everything the process published since session
creation, with no byte duplicated or lost at the replay/live boundary.
Publishes are whole event-loop callbacks, so each lands entirely before or
after the attach — the model of the atomicity a publish coinciding with an
attach gets from Node's run-to-completion scheduling. -/
theorem attach_replay_no_gap (cwd : String) (hcwd : cwd ≠ "")
    (ps qs : List (List Char)) :
    ∃ c1 : Conn,
      (run (initWorld 2) ([Ev.select 0 cwd true] ++ ps.map (Ev.ptyData 0) ++ [Ev.wsClose 0, Ev.select 1 cwd true] ++ qs.map (Ev.ptyData 0))).conns.get? 1 = some c1 ∧
      rawBytes c1.sent = ps.foldl publish [] ++ qs.flatten ∧
      rawBytes c1.sent <:+ (ps ++ qs).flatten := by
  have hdead0 : ∀ sid sd,
      assocGet (initWorld 2).server.sessions cwd = some sid →
      assocGet (initWorld 2).server.heap sid = some sd → sd.alive = false := by
    intro sid sd h1 _h2
    simp [initWorld, assocGet] at h1
  have hsuf : ps.foldl publish [] ++ qs.flatten <:+ (ps ++ qs).flatten := by
    obtain ⟨r, hr⟩ := foldl_publish_suffix ps []
    refine ⟨r, ?_⟩
    rw [List.flatten_append, ← List.append_assoc, hr]
    simp
  have s1 : step (initWorld 2) (Ev.select 0 cwd true) = (⟨⟨[(cwd, 0)], [(0, freshSession cwd)], 1⟩, [⟨true, some 0, some 0, [Output.ctrl CtrlMsg.ready, Output.ctrl (CtrlMsg.spawned cwd 0)]⟩, initConn]⟩ : World) :=
    step_select_spawn (initWorld 2).server [initConn, initConn] 0 initConn
      cwd rfl hcwd hdead0
  have r1 : run (⟨⟨[(cwd, 0)], [(0, freshSession cwd)], 1⟩, [⟨true, some 0, some 0, [Output.ctrl CtrlMsg.ready, Output.ctrl (CtrlMsg.spawned cwd 0)]⟩, initConn]⟩ : World) (ps.map (Ev.ptyData 0)) = (⟨⟨[(cwd, 0)], [(0, ⟨cwd, ps.foldl publish [], true, [], []⟩)], 1⟩, [⟨true, some 0, some 0, [Output.ctrl CtrlMsg.ready, Output.ctrl (CtrlMsg.spawned cwd 0)] ++ ps.map Output.raw⟩, initConn]⟩ : World) :=
    run_ptyData 0 ps ⟨[(cwd, 0)], [(0, freshSession cwd)], 1⟩ [⟨true, some 0, some 0, [Output.ctrl CtrlMsg.ready, Output.ctrl (CtrlMsg.spawned cwd 0)]⟩, initConn] (freshSession cwd) rfl
  have s3 : step (⟨⟨[(cwd, 0)], [(0, ⟨cwd, ps.foldl publish [], true, [], []⟩)], 1⟩, [⟨true, some 0, some 0, [Output.ctrl CtrlMsg.ready, Output.ctrl (CtrlMsg.spawned cwd 0)] ++ ps.map Output.raw⟩, initConn]⟩ : World) (Ev.wsClose 0) = (⟨⟨[(cwd, 0)], [(0, ⟨cwd, ps.foldl publish [], true, [], []⟩)], 1⟩, [⟨false, none, none, [Output.ctrl CtrlMsg.ready, Output.ctrl (CtrlMsg.spawned cwd 0)] ++ ps.map Output.raw⟩, initConn]⟩ : World) :=
    step_wsClose ⟨[(cwd, 0)], [(0, ⟨cwd, ps.foldl publish [], true, [], []⟩)], 1⟩
      [⟨true, some 0, some 0, [Output.ctrl CtrlMsg.ready, Output.ctrl (CtrlMsg.spawned cwd 0)] ++ ps.map Output.raw⟩, initConn] 0
      ⟨true, some 0, some 0, [Output.ctrl CtrlMsg.ready, Output.ctrl (CtrlMsg.spawned cwd 0)] ++ ps.map Output.raw⟩ rfl
  have hreg : assocGet ([(cwd, 0)] : List (String × Nat)) cwd = some 0 := by
    simp [assocGet]
  have s4 : step (⟨⟨[(cwd, 0)], [(0, ⟨cwd, ps.foldl publish [], true, [], []⟩)], 1⟩, [⟨false, none, none, [Output.ctrl CtrlMsg.ready, Output.ctrl (CtrlMsg.spawned cwd 0)] ++ ps.map Output.raw⟩, initConn]⟩ : World) (Ev.select 1 cwd true) = (⟨⟨[(cwd, 0)], [(0, ⟨cwd, ps.foldl publish [], true, [], []⟩)], 1⟩, [⟨false, none, none, [Output.ctrl CtrlMsg.ready, Output.ctrl (CtrlMsg.spawned cwd 0)] ++ ps.map Output.raw⟩, sendCtrl (if ps.foldl publish [] = [] then attachConn (detachConn initConn) 0 else sendRaw (attachConn (detachConn initConn) 0) (ps.foldl publish [])) (CtrlMsg.attachedMsg cwd 0)]⟩ : World) :=
    step_select_attach ⟨[(cwd, 0)], [(0, ⟨cwd, ps.foldl publish [], true, [], []⟩)], 1⟩
      [⟨false, none, none, [Output.ctrl CtrlMsg.ready, Output.ctrl (CtrlMsg.spawned cwd 0)] ++ ps.map Output.raw⟩, initConn] 1 initConn cwd 0
      ⟨cwd, ps.foldl publish [], true, [], []⟩ rfl hcwd hreg rfl rfl
  by_cases hb : ps.foldl publish [] = []
  · rw [if_pos hb] at s4
    have e3 : run (⟨⟨[(cwd, 0)], [(0, ⟨cwd, ps.foldl publish [], true, [], []⟩)], 1⟩, [⟨true, some 0, some 0, [Output.ctrl CtrlMsg.ready, Output.ctrl (CtrlMsg.spawned cwd 0)] ++ ps.map Output.raw⟩, initConn]⟩ : World) [Ev.wsClose 0, Ev.select 1 cwd true] = (⟨⟨[(cwd, 0)], [(0, ⟨cwd, ps.foldl publish [], true, [], []⟩)], 1⟩, [⟨false, none, none, [Output.ctrl CtrlMsg.ready, Output.ctrl (CtrlMsg.spawned cwd 0)] ++ ps.map Output.raw⟩, sendCtrl (attachConn (detachConn initConn) 0) (CtrlMsg.attachedMsg cwd 0)]⟩ : World) := by
      have hsplit : run (⟨⟨[(cwd, 0)], [(0, ⟨cwd, ps.foldl publish [], true, [], []⟩)], 1⟩, [⟨true, some 0, some 0, [Output.ctrl CtrlMsg.ready, Output.ctrl (CtrlMsg.spawned cwd 0)] ++ ps.map Output.raw⟩, initConn]⟩ : World) [Ev.wsClose 0, Ev.select 1 cwd true] =
          step (step (⟨⟨[(cwd, 0)], [(0, ⟨cwd, ps.foldl publish [], true, [], []⟩)], 1⟩, [⟨true, some 0, some 0, [Output.ctrl CtrlMsg.ready, Output.ctrl (CtrlMsg.spawned cwd 0)] ++ ps.map Output.raw⟩, initConn]⟩ : World) (Ev.wsClose 0)) (Ev.select 1 cwd true) := rfl
      rw [hsplit, s3, s4]
    have r2 : run (⟨⟨[(cwd, 0)], [(0, ⟨cwd, ps.foldl publish [], true, [], []⟩)], 1⟩, [⟨false, none, none, [Output.ctrl CtrlMsg.ready, Output.ctrl (CtrlMsg.spawned cwd 0)] ++ ps.map Output.raw⟩, sendCtrl (attachConn (detachConn initConn) 0) (CtrlMsg.attachedMsg cwd 0)]⟩ : World) (qs.map (Ev.ptyData 0)) = (⟨⟨[(cwd, 0)], [(0, ⟨cwd, qs.foldl publish (ps.foldl publish []), true, [], []⟩)], 1⟩, [⟨false, none, none, [Output.ctrl CtrlMsg.ready, Output.ctrl (CtrlMsg.spawned cwd 0)] ++ ps.map Output.raw⟩, ⟨true, some 0, some 0, [Output.ctrl CtrlMsg.ready, Output.ctrl (CtrlMsg.attachedMsg cwd 0)] ++ qs.map Output.raw⟩]⟩ : World) :=
      run_ptyData 0 qs ⟨[(cwd, 0)], [(0, ⟨cwd, ps.foldl publish [], true, [], []⟩)], 1⟩
        [⟨false, none, none, [Output.ctrl CtrlMsg.ready, Output.ctrl (CtrlMsg.spawned cwd 0)] ++ ps.map Output.raw⟩, sendCtrl (attachConn (detachConn initConn) 0) (CtrlMsg.attachedMsg cwd 0)] ⟨cwd, ps.foldl publish [], true, [], []⟩ rfl
    have hrun : run (initWorld 2) ([Ev.select 0 cwd true] ++ ps.map (Ev.ptyData 0) ++ [Ev.wsClose 0, Ev.select 1 cwd true] ++ qs.map (Ev.ptyData 0)) = (⟨⟨[(cwd, 0)], [(0, ⟨cwd, qs.foldl publish (ps.foldl publish []), true, [], []⟩)], 1⟩, [⟨false, none, none, [Output.ctrl CtrlMsg.ready, Output.ctrl (CtrlMsg.spawned cwd 0)] ++ ps.map Output.raw⟩, ⟨true, some 0, some 0, [Output.ctrl CtrlMsg.ready, Output.ctrl (CtrlMsg.attachedMsg cwd 0)] ++ qs.map Output.raw⟩]⟩ : World) := by
      rw [run_append, run_append, run_append]
      rw [show run (initWorld 2) [Ev.select 0 cwd true] = (⟨⟨[(cwd, 0)], [(0, freshSession cwd)], 1⟩, [⟨true, some 0, some 0, [Output.ctrl CtrlMsg.ready, Output.ctrl (CtrlMsg.spawned cwd 0)]⟩, initConn]⟩ : World) from s1]
      rw [r1, e3]
      exact r2
    have heq : rawBytes ([Output.ctrl CtrlMsg.ready, Output.ctrl (CtrlMsg.attachedMsg cwd 0)] ++ qs.map Output.raw) =
        ps.foldl publish [] ++ qs.flatten := by
      rw [rawBytes_append, rawBytes_map_raw, hb]
      simp [rawBytes]
    exact ⟨⟨true, some 0, some 0, [Output.ctrl CtrlMsg.ready, Output.ctrl (CtrlMsg.attachedMsg cwd 0)] ++ qs.map Output.raw⟩, by rw [hrun]; rfl, heq, by rw [heq]; exact hsuf⟩
  · rw [if_neg hb] at s4
    have e3 : run (⟨⟨[(cwd, 0)], [(0, ⟨cwd, ps.foldl publish [], true, [], []⟩)], 1⟩, [⟨true, some 0, some 0, [Output.ctrl CtrlMsg.ready, Output.ctrl (CtrlMsg.spawned cwd 0)] ++ ps.map Output.raw⟩, initConn]⟩ : World) [Ev.wsClose 0, Ev.select 1 cwd true] = (⟨⟨[(cwd, 0)], [(0, ⟨cwd, ps.foldl publish [], true, [], []⟩)], 1⟩, [⟨false, none, none, [Output.ctrl CtrlMsg.ready, Output.ctrl (CtrlMsg.spawned cwd 0)] ++ ps.map Output.raw⟩, sendCtrl (sendRaw (attachConn (detachConn initConn) 0) (ps.foldl publish [])) (CtrlMsg.attachedMsg cwd 0)]⟩ : World) := by
      have hsplit : run (⟨⟨[(cwd, 0)], [(0, ⟨cwd, ps.foldl publish [], true, [], []⟩)], 1⟩, [⟨true, some 0, some 0, [Output.ctrl CtrlMsg.ready, Output.ctrl (CtrlMsg.spawned cwd 0)] ++ ps.map Output.raw⟩, initConn]⟩ : World) [Ev.wsClose 0, Ev.select 1 cwd true] =
          step (step (⟨⟨[(cwd, 0)], [(0, ⟨cwd, ps.foldl publish [], true, [], []⟩)], 1⟩, [⟨true, some 0, some 0, [Output.ctrl CtrlMsg.ready, Output.ctrl (CtrlMsg.spawned cwd 0)] ++ ps.map Output.raw⟩, initConn]⟩ : World) (Ev.wsClose 0)) (Ev.select 1 cwd true) := rfl
      rw [hsplit, s3, s4]
    have r2 : run (⟨⟨[(cwd, 0)], [(0, ⟨cwd, ps.foldl publish [], true, [], []⟩)], 1⟩, [⟨false, none, none, [Output.ctrl CtrlMsg.ready, Output.ctrl (CtrlMsg.spawned cwd 0)] ++ ps.map Output.raw⟩, sendCtrl (sendRaw (attachConn (detachConn initConn) 0) (ps.foldl publish [])) (CtrlMsg.attachedMsg cwd 0)]⟩ : World) (qs.map (Ev.ptyData 0)) = (⟨⟨[(cwd, 0)], [(0, ⟨cwd, qs.foldl publish (ps.foldl publish []), true, [], []⟩)], 1⟩, [⟨false, none, none, [Output.ctrl CtrlMsg.ready, Output.ctrl (CtrlMsg.spawned cwd 0)] ++ ps.map Output.raw⟩, ⟨true, some 0, some 0, [Output.ctrl CtrlMsg.ready, Output.raw (ps.foldl publish []), Output.ctrl (CtrlMsg.attachedMsg cwd 0)] ++ qs.map Output.raw⟩]⟩ : World) :=
      run_ptyData 0 qs ⟨[(cwd, 0)], [(0, ⟨cwd, ps.foldl publish [], true, [], []⟩)], 1⟩
        [⟨false, none, none, [Output.ctrl CtrlMsg.ready, Output.ctrl (CtrlMsg.spawned cwd 0)] ++ ps.map Output.raw⟩, sendCtrl (sendRaw (attachConn (detachConn initConn) 0) (ps.foldl publish [])) (CtrlMsg.attachedMsg cwd 0)] ⟨cwd, ps.foldl publish [], true, [], []⟩ rfl
    have hrun : run (initWorld 2) ([Ev.select 0 cwd true] ++ ps.map (Ev.ptyData 0) ++ [Ev.wsClose 0, Ev.select 1 cwd true] ++ qs.map (Ev.ptyData 0)) = (⟨⟨[(cwd, 0)], [(0, ⟨cwd, qs.foldl publish (ps.foldl publish []), true, [], []⟩)], 1⟩, [⟨false, none, none, [Output.ctrl CtrlMsg.ready, Output.ctrl (CtrlMsg.spawned cwd 0)] ++ ps.map Output.raw⟩, ⟨true, some 0, some 0, [Output.ctrl CtrlMsg.ready, Output.raw (ps.foldl publish []), Output.ctrl (CtrlMsg.attachedMsg cwd 0)] ++ qs.map Output.raw⟩]⟩ : World) := by
      rw [run_append, run_append, run_append]
      rw [show run (initWorld 2) [Ev.select 0 cwd true] = (⟨⟨[(cwd, 0)], [(0, freshSession cwd)], 1⟩, [⟨true, some 0, some 0, [Output.ctrl CtrlMsg.ready, Output.ctrl (CtrlMsg.spawned cwd 0)]⟩, initConn]⟩ : World) from s1]
      rw [r1, e3]
      exact r2
    have heq : rawBytes ([Output.ctrl CtrlMsg.ready, Output.raw (ps.foldl publish []), Output.ctrl (CtrlMsg.attachedMsg cwd 0)] ++ qs.map Output.raw) =
        ps.foldl publish [] ++ qs.flatten := by
      rw [rawBytes_append, rawBytes_map_raw]
      simp [rawBytes]
    exact ⟨⟨true, some 0, some 0, [Output.ctrl CtrlMsg.ready, Output.raw (ps.foldl publish []), Output.ctrl (CtrlMsg.attachedMsg cwd 0)] ++ qs.map Output.raw⟩, by rw [hrun]; rfl, heq, by rw [heq]; exact hsuf⟩

/-- C3 witness: publish `"hello"`, detach, reattach, publish `"x"`: the
second connection receives `"hello"` as replay and then `"x"` live. -/
theorem attach_replay_no_gap_witness :
    ∃ c1 : Conn,
      (run (initWorld 2)
        ([Ev.select 0 "/tmp/proj-a" true] ++
         [[ 'h', 'e', 'l', 'l', 'o' ]].map (Ev.ptyData 0) ++
         [Ev.wsClose 0, Ev.select 1 "/tmp/proj-a" true] ++
         [[ 'x' ]].map (Ev.ptyData 0))).conns.get? 1 = some c1 ∧
      rawBytes c1.sent =
        [[ 'h', 'e', 'l', 'l', 'o' ]].foldl publish [] ++
          [[ 'x' ]].flatten ∧
      rawBytes c1.sent <:+
        ([[ 'h', 'e', 'l', 'l', 'o' ]] ++ [[ 'x' ]]).flatten :=
  attach_replay_no_gap "/tmp/proj-a" (by decide)
    [[ 'h', 'e', 'l', 'l', 'o' ]] [[ 'x' ]]
